import Mathlib

/-!
# Verification of the canvas-reminder eligibility / reporting core

Shallow embedding of the pure decision logic of `canvas_test.py` and
`check_assignments.py`:

* `should_include_assignment` — the eligibility filter (`canvas_test.py`);
* `_assignment_to_record` — the record projection (`canvas_test.py`);
* `collect_results` — the per-course collection loop, with the external
  assignment fetch abstracted as an `Except`-valued function;
* `_chunk_lines` — the greedy line chunker (`canvas_test.py`);
* the payload construction of `send_discord_notifications`;
* the per-assignment condition of `find_bad_assignments`
  (`check_assignments.py`).

Modelling conventions: JSON numbers are `Rat` (Python int/float arithmetic on
scores and thresholds, idealized as exact rationals); timestamps are `Int`
(Python `datetime` values are totally ordered, and only comparisons are used);
a `due_at` string together with the outcome of `dateutil.isoparse` on it is
modelled by `ParsedDate` (`ok d` when the string parses to timestamp `d`,
`fail` when it is empty or unparsable — both make the date fallback a no-op in
the source); an absent JSON field is `Option.none`.  Python code that can
raise is modelled with `Option`/`Except` results.
-/

/-- Outcome of `isoparse` on a present `due_at` string: either a timestamp, or
a parse failure (which the source catches and ignores). An empty string, which
the source skips via its truthiness test, behaves like `fail`. -/
inductive ParsedDate where
  | ok (d : Int)
  | fail
deriving DecidableEq, Repr

/-- The embedded `submission` object.  `missing` and `late` are stored as the
truthiness the source extracts with `bool(sub.get(...))` / `sub.get(...)`;
`score` is the optional numeric score. -/
structure Submission where
  missing : Bool := false
  late : Bool := false
  score : Option Rat := none
deriving DecidableEq, Repr

/-- `a.get("submission") or {}`: the empty dict the source substitutes for an
absent (or empty/None) submission. -/
def emptySubmission : Submission := {}

/-- The fields of an assignment object that the embedded code reads. -/
structure Assignment where
  id : Option Int := none
  name : Option String := none
  points_possible : Option Rat := none
  due_at : Option ParsedDate := none
  grading_period_id : Option Int := none
  submission : Option Submission := none
  html_url : Option String := none
deriving DecidableEq, Repr

/-- A course, as consumed by `collect_results` (`c["id"]`, `course.get("name")`). -/
structure Course where
  id : Int
  name : Option String := none
deriving DecidableEq, Repr

/-- The reporting-ready record dict built by `_assignment_to_record`. -/
structure Record where
  course_id : Option Int := none
  course_name : String := "Unnamed Course"
  assignment_id : Option Int := none
  assignment_name : String := "Unnamed Assignment"
  status : String := "low_score"
  score : Option Rat := none
  points_possible : Option Rat := none
  percent : Option Rat := none
  due_at : Option ParsedDate := none
  url : Option String := none
deriving DecidableEq, Repr

/-- The window-membership computation of `should_include_assignment`
(`canvas_test.py` lines 94-105): the local variable `belongs` after the
date-range fallback.  `gp in period_ids if gp is not None else False`, then,
when that is false and `ranges` is non-empty, the inclusive date-range test on
a parsed `due_at` (parse failure or absent `due_at` leaves `belongs` false). -/
def assignment_belongs (a : Assignment) (period_ids : List Int)
    (ranges : List (Int × Int)) : Bool :=
  let belongs :=
    match a.grading_period_id with
    | some gp => period_ids.contains gp
    | none => false
  if !belongs && !ranges.isEmpty then
    match a.due_at with
    | some (ParsedDate.ok d) => ranges.any fun r => decide (r.1 ≤ d ∧ d ≤ r.2)
    | _ => belongs
  else belongs

/-- `should_include_assignment(a, period_ids, ranges, low_score_threshold_percent=50.0)`
from `canvas_test.py` lines 88-119.  `points` is "truthy" exactly when it is
present and non-zero; with a non-zero rational divisor the guarded division
cannot fail, so the `except` branch of the source is unreachable here. -/
def should_include_assignment (a : Assignment) (period_ids : List Int)
    (ranges : List (Int × Int)) (low_score_threshold_percent : Rat := 50) : Bool :=
  let sub := a.submission.getD emptySubmission
  let missing := sub.missing
  let score := sub.score
  let points := a.points_possible
  if !(assignment_belongs a period_ids ranges) then false
  else if missing then true
  else
    match score, points with
    | some s, some p =>
      if p ≠ 0 then decide ((s / p) * 100 ≤ low_score_threshold_percent)
      else false
    | _, _ => false

/-- Round to the nearest integer, ties to even — the rounding of Python's
`round` on an exact value. -/
def roundHalfEven (q : Rat) : Int :=
  let f : Int := ⌊q⌋
  let frac : Rat := q - f
  if frac < 1 / 2 then f
  else if 1 / 2 < frac then f + 1
  else if f % 2 = 0 then f else f + 1

/-- Python's `round(q, 2)`. -/
def round2 (q : Rat) : Rat := (roundHalfEven (q * 100) : Rat) / 100

/-- `_assignment_to_record(course, a)` from `canvas_test.py` lines 140-170. -/
def _assignment_to_record (course : Course) (a : Assignment) : Record :=
  let sub := a.submission.getD emptySubmission
  let name := a.name.getD "Unnamed Assignment"
  let score := sub.score
  let pts := a.points_possible
  let percent : Option Rat :=
    match score, pts with
    | some s, some p => if p ≠ 0 then some (round2 ((s / p) * 100)) else none
    | _, _ => none
  let status :=
    if sub.missing then "missing"
    else if sub.late then "late"
    else "low_score"
  { course_id := some course.id
    course_name := course.name.getD "Unnamed Course"
    assignment_id := a.id
    assignment_name := name
    status := status
    score := score
    points_possible := pts
    percent := percent
    due_at := a.due_at
    url := a.html_url }

/-- `collect_results()` from `canvas_test.py` lines 173-191, with the course
list and the per-course `get_assignments` call (fetch + filter, which may
raise `RuntimeError`) abstracted as parameters.  A failing course is skipped
(`except RuntimeError: continue`); a succeeding course appends one record per
returned assignment, in order. -/
def collect_results (courses : List Course)
    (get_assignments : Int → Except Unit (List Assignment)) : List Record :=
  match courses with
  | [] => []
  | c :: cs =>
    (match get_assignments c.id with
     | Except.error _ => []
     | Except.ok as => as.map (_assignment_to_record c)) ++
    collect_results cs get_assignments

/-- Fixed-point rendering of a rational with two decimal places,
Python's `f"{x:.2f}"` (idealized to exact decimal rounding, ties to even). -/
def toFixed2 (q : Rat) : String :=
  let n : Int := roundHalfEven (q * 100)
  let sign := if n < 0 then "-" else ""
  let m := n.natAbs
  let f := m % 100
  sign ++ toString (m / 100) ++ "." ++ (if f < 10 then "0" else "") ++ toString f

/-- `_format_percent(record)` from `canvas_test.py` lines 198-202. -/
def _format_percent (record : Record) : String :=
  match record.percent with
  | none => "N/A"
  | some percent => toFixed2 percent ++ "%"

/-- `_format_assignment_line(record)` from `canvas_test.py` lines 205-215. -/
def _format_assignment_line (record : Record) : String :=
  let status := record.status.replace "_" " "
  let course := record.course_name
  let name := record.assignment_name
  let percent := _format_percent record
  let line := "**" ++ course ++ "** — " ++ name ++ " (" ++ status ++ ", " ++ percent ++ ")"
  match record.url with
  | some url => line ++ " <" ++ url ++ ">"
  | none => line

/-- The loop of `_chunk_lines` (`canvas_test.py` lines 218-235): `current` is
the pending chunk in reverse order, `current_len` the running length count. -/
def chunkLinesAux (max_len : Nat) :
    List String → List String → Nat → List String
  | [], current, _ =>
    if current.isEmpty then [] else [String.intercalate "\n" current.reverse]
  | line :: rest, current, current_len =>
    let line_len := line.length + 1
    if !current.isEmpty && decide (max_len < current_len + line_len) then
      String.intercalate "\n" current.reverse ::
        chunkLinesAux max_len rest [line] line_len
    else
      chunkLinesAux max_len rest (line :: current) (current_len + line_len)

/-- `_chunk_lines(lines, max_len=1900)` from `canvas_test.py` lines 218-235. -/
def _chunk_lines (lines : List String) (max_len : Nat := 1900) : List String :=
  chunkLinesAux max_len lines [] 0

/-- Ghost version of `chunkLinesAux` that keeps each chunk as the list of its
lines instead of their newline-join; used to state and prove the structural
properties of the chunker. -/
def chunkGroupsAux (max_len : Nat) :
    List String → List String → Nat → List (List String)
  | [], current, _ =>
    if current.isEmpty then [] else [current.reverse]
  | line :: rest, current, current_len =>
    let line_len := line.length + 1
    if !current.isEmpty && decide (max_len < current_len + line_len) then
      current.reverse :: chunkGroupsAux max_len rest [line] line_len
    else
      chunkGroupsAux max_len rest (line :: current) (current_len + line_len)

/-- The chunks of `lines`, as lists of lines. -/
def chunkGroups (lines : List String) (max_len : Nat) : List (List String) :=
  chunkGroupsAux max_len lines [] 0

/-- The length the chunker charges a group of lines: each line counted with
its trailing newline, `len(line) + 1`. -/
def chunkCost (g : List String) : Nat := (g.map fun l => l.length + 1).sum

/-- The list of payload contents built by `send_discord_notifications`
(`canvas_test.py` lines 238-248) once a webhook URL is configured: the fixed
all-clear message for an empty record list, otherwise one payload per chunk of
the formatted lines.  The HTTP delivery of each payload is external I/O and is
not modelled. -/
def send_discord_notification_contents (records : List Record) : List String :=
  if records.isEmpty then
    ["✅ No missing or below 50% assignments found."]
  else
    _chunk_lines (records.map _format_assignment_line) 1900

/-- The per-assignment condition of `find_bad_assignments`
(`check_assignments.py` lines 25-37): `some true` when the assignment is
appended to `bad`, `some false` when it is skipped or not bad, `none` when the
source would raise `ZeroDivisionError` (present score with
`points_possible: 0`, since `a.get("points_possible", 100)` defaults only an
absent field). -/
def find_bad_assignments_condition (a : Assignment) : Option Bool :=
  match a.submission with
  | none => some false
  | some sub =>
    let missing := sub.missing
    let score := sub.score
    let points := a.points_possible.getD 100
    match score with
    | some s =>
      if points = 0 then none
      else some (missing || decide (s / points * 100 < 50))
    | none => some (missing || decide ((0 : Rat) < 50))

-- Sanity checks mirroring the unit tests of `canvas_test.py` (TestFiltering).

example :
    should_include_assignment
      { grading_period_id := some 1, submission := some { missing := true },
        points_possible := some 10 }
      [1] [(0, 1000)] 50 = true := by decide

example :
    should_include_assignment
      { grading_period_id := some 1,
        submission := some { missing := false, score := some 4 },
        points_possible := some 10 }
      [1] [(0, 1000)] 50 = true := by
  norm_num [should_include_assignment, assignment_belongs, emptySubmission]

example :
    should_include_assignment
      { grading_period_id := some 1,
        submission := some { missing := false, score := some 9 },
        points_possible := some 10 }
      [1] [(0, 1000)] 50 = false := by
  norm_num [should_include_assignment, assignment_belongs, emptySubmission]

example :
    should_include_assignment
      { grading_period_id := some 2, submission := some { missing := true },
        points_possible := some 10 }
      [1] [(0, 1000)] 50 = false := by decide

example :
    should_include_assignment
      { grading_period_id := none, due_at := some (ParsedDate.ok 500),
        submission := some { missing := true }, points_possible := some 10 }
      [1] [(0, 1000)] 50 = true := by decide

example :
    should_include_assignment
      { grading_period_id := none, due_at := some (ParsedDate.ok 2000),
        submission := some { missing := true }, points_possible := some 10 }
      [1] [(0, 1000)] 50 = false := by decide

example :
    should_include_assignment
      { grading_period_id := some 1,
        submission := some { missing := false, score := none },
        points_possible := some 10 }
      [1] [(0, 1000)] 50 = false := by decide

example :
    should_include_assignment
      { grading_period_id := some 1,
        submission := some { missing := false, score := some 0 } }
      [1] [(0, 1000)] 50 = false := by decide

example :
    _chunk_lines ["aa", "bb", "cc"] 6 = ["aa\nbb", "cc"] := by decide

example :
    _chunk_lines ["aaaaaaaa", "bb"] 6 = ["aaaaaaaa", "bb"] := by decide

-- ---------------------------------------------------------------------------
-- Helper lemmas about `String.intercalate`
-- ---------------------------------------------------------------------------

theorem intercalate_go_append (s : String) :
    ∀ (as : List String) (b acc : String),
      String.intercalate.go (b ++ acc) s as = b ++ String.intercalate.go acc s as := by
  intro as
  induction as with
  | nil => intro b acc; simp [String.intercalate.go]
  | cons a as ih =>
    intro b acc
    show String.intercalate.go (b ++ acc ++ s ++ a) s as =
      b ++ String.intercalate.go (acc ++ s ++ a) s as
    rw [String.append_assoc, String.append_assoc, ← ih]
    rw [String.append_assoc]

theorem intercalate_cons_cons (s a : String) (l : List String) (h : l ≠ []) :
    String.intercalate s (a :: l) = a ++ s ++ String.intercalate s l := by
  cases l with
  | nil => exact absurd rfl h
  | cons b l' =>
    show String.intercalate.go (a ++ s ++ b) s l' = (a ++ s) ++ String.intercalate.go b s l'
    exact intercalate_go_append s l' (a ++ s) b

theorem intercalate_append_nonempty (s : String) :
    ∀ (xs ys : List String), xs ≠ [] → ys ≠ [] →
      String.intercalate s (xs ++ ys) =
        String.intercalate s xs ++ s ++ String.intercalate s ys := by
  intro xs
  induction xs with
  | nil => intro ys h _; exact absurd rfl h
  | cons a xs ih =>
    intro ys _ hys
    cases xs with
    | nil =>
      simp only [List.nil_append, List.cons_append]
      rw [intercalate_cons_cons s a ys hys]
      rfl
    | cons b xs' =>
      have hxs : (b :: xs' : List String) ≠ [] := by simp
      have hne : (b :: xs') ++ ys ≠ [] := by simp
      rw [List.cons_append, intercalate_cons_cons s a _ hne,
        intercalate_cons_cons s a _ hxs, ih ys hxs hys]
      simp [String.append_assoc]

theorem intercalate_map_intercalate (s : String) :
    ∀ (gs : List (List String)), (∀ g ∈ gs, g ≠ []) →
      String.intercalate s (gs.map (String.intercalate s)) =
        String.intercalate s gs.flatten := by
  intro gs
  induction gs with
  | nil => intro _; rfl
  | cons g gs ih =>
    intro h
    have hg : g ≠ [] := h g (by simp)
    have hgs : ∀ g' ∈ gs, g' ≠ [] := fun g' hmem => h g' (by simp [hmem])
    cases gs with
    | nil =>
      simp only [List.map_cons, List.map_nil, List.flatten_cons, List.flatten_nil,
        List.append_nil]
      rfl
    | cons g' gs' =>
      have hmapne : ((g' :: gs').map (String.intercalate s)) ≠ [] := by simp
      have hflatne : (g' :: gs').flatten ≠ [] := by
        have : g' ≠ [] := hgs g' (by simp)
        cases g' with
        | nil => exact absurd rfl this
        | cons x g'' => simp
      conv_rhs => rw [List.flatten_cons]
      rw [List.map_cons, intercalate_cons_cons s _ _ hmapne, ih hgs,
        intercalate_append_nonempty s g _ hg hflatne]

-- ---------------------------------------------------------------------------
-- Structural lemmas about the chunker
-- ---------------------------------------------------------------------------

theorem chunkLinesAux_eq_map (max_len : Nat) :
    ∀ (rest current : List String) (len : Nat),
      chunkLinesAux max_len rest current len =
        (chunkGroupsAux max_len rest current len).map (String.intercalate "\n") := by
  intro rest
  induction rest with
  | nil =>
    intro current len
    by_cases h : current.isEmpty <;> simp [chunkLinesAux, chunkGroupsAux, h]
  | cons line rest ih =>
    intro current len
    by_cases h : (!current.isEmpty && decide (max_len < len + (line.length + 1))) = true <;>
      simp [chunkLinesAux, chunkGroupsAux, h, ih]

theorem chunkGroupsAux_flatten (max_len : Nat) :
    ∀ (rest current : List String) (len : Nat),
      (chunkGroupsAux max_len rest current len).flatten = current.reverse ++ rest := by
  intro rest
  induction rest with
  | nil =>
    intro current len
    by_cases h : current.isEmpty
    · have : current = [] := by simpa [List.isEmpty_iff] using h
      simp [chunkGroupsAux, this]
    · simp [chunkGroupsAux, h]
  | cons line rest ih =>
    intro current len
    by_cases h : (!current.isEmpty && decide (max_len < len + (line.length + 1))) = true <;>
      simp [chunkGroupsAux, h, ih]

theorem chunkGroupsAux_ne_nil (max_len : Nat) :
    ∀ (rest current : List String) (len : Nat),
      ∀ g ∈ chunkGroupsAux max_len rest current len, g ≠ [] := by
  intro rest
  induction rest with
  | nil =>
    intro current len g hg
    by_cases h : current.isEmpty
    · simp [chunkGroupsAux, h] at hg
    · have hc : current ≠ [] := by simpa [List.isEmpty_iff] using h
      simp only [chunkGroupsAux, h, if_false, Bool.false_eq_true, List.mem_singleton] at hg
      subst hg
      simpa using hc
  | cons line rest ih =>
    intro current len g hg
    by_cases h : (!current.isEmpty && decide (max_len < len + (line.length + 1))) = true
    · simp only [chunkGroupsAux, h, if_true, List.mem_cons] at hg
      rcases hg with hg | hg
      · subst hg
        have hc : current ≠ [] := by
          rcases Bool.and_eq_true .. ▸ h with ⟨h1, _⟩
          simpa [List.isEmpty_iff] using h1
        simpa using hc
      · exact ih [line] _ g hg
    · simp only [chunkGroupsAux, h, if_false, Bool.false_eq_true] at hg
      exact ih (line :: current) _ g hg

theorem chunkCost_reverse (g : List String) : chunkCost g.reverse = chunkCost g := by
  unfold chunkCost
  rw [List.map_reverse, List.sum_reverse]

theorem chunkGroupsAux_cost (max_len : Nat) :
    ∀ (rest current : List String) (len : Nat), len = chunkCost current →
      (chunkCost current ≤ max_len ∨ ∃ l, current = [l]) →
      ∀ g ∈ chunkGroupsAux max_len rest current len,
        chunkCost g ≤ max_len ∨ ∃ l, g = [l] := by
  intro rest
  induction rest with
  | nil =>
    intro current len _ hinv g hg
    by_cases h : current.isEmpty
    · simp [chunkGroupsAux, h] at hg
    · simp only [chunkGroupsAux, h, if_false, Bool.false_eq_true, List.mem_singleton] at hg
      subst hg
      rcases hinv with hle | ⟨l, hl⟩
      · exact Or.inl (by rwa [chunkCost_reverse])
      · exact Or.inr ⟨l, by simp [hl]⟩
  | cons line rest ih =>
    intro current len hlen hinv g hg
    by_cases h : (!current.isEmpty && decide (max_len < len + (line.length + 1))) = true
    · simp only [chunkGroupsAux, h, if_true, List.mem_cons] at hg
      rcases hg with hg | hg
      · subst hg
        rcases hinv with hle | ⟨l, hl⟩
        · exact Or.inl (by rwa [chunkCost_reverse])
        · exact Or.inr ⟨l, by simp [hl]⟩
      · exact ih [line] _ (by simp [chunkCost]) (Or.inr ⟨line, rfl⟩) g hg
    · simp only [chunkGroupsAux, h, if_false, Bool.false_eq_true] at hg
      by_cases hc : current.isEmpty = true
      · have hcur : current = [] := by simpa [List.isEmpty_iff] using hc
        subst hcur
        refine ih [line] _ ?_ (Or.inr ⟨line, rfl⟩) g hg
        simp [chunkCost] at hlen
        simp [chunkCost, hlen]
      · have hle : len + (line.length + 1) ≤ max_len := by
          simp only [Bool.and_eq_true, Bool.not_eq_true', decide_eq_true_eq, not_and] at h
          have := h (by simpa [Bool.not_eq_true'] using hc)
          omega
        refine ih (line :: current) _ ?_ (Or.inl ?_) g hg
        · simp [chunkCost] at hlen ⊢
          omega
        · simp [chunkCost] at hlen ⊢
          omega

-- ---------------------------------------------------------------------------
-- Claim theorems
-- ---------------------------------------------------------------------------

/-- Characterization of the `belongs` computation: true iff the declared
grading period matches, or `ranges` is non-empty and the parsed due date falls
in some inclusive range. -/
theorem assignment_belongs_iff
    (a : Assignment) (period_ids : List Int) (ranges : List (Int × Int)) :
    assignment_belongs a period_ids ranges = true ↔
      ((∃ gp, a.grading_period_id = some gp ∧ gp ∈ period_ids) ∨
        (ranges ≠ [] ∧ ∃ d, a.due_at = some (ParsedDate.ok d) ∧
          ∃ r ∈ ranges, r.1 ≤ d ∧ d ≤ r.2)) := by
  obtain ⟨id, name, pts, due, gp, sub, url⟩ := a
  rcases gp with _ | gp
  · rcases due with _ | pd
    · rcases ranges with _ | ⟨r0, rs⟩ <;> simp [assignment_belongs]
    · rcases pd with d | _
      · rcases ranges with _ | ⟨r0, rs⟩ <;>
          simp [assignment_belongs, List.any_eq_true, and_assoc]
      · rcases ranges with _ | ⟨r0, rs⟩ <;> simp [assignment_belongs]
  · by_cases hin : gp ∈ period_ids
    · simp [assignment_belongs, List.contains, hin]
    · rcases due with _ | pd
      · rcases ranges with _ | ⟨r0, rs⟩ <;>
          simp [assignment_belongs, List.contains, hin]
      · rcases pd with d | _
        · rcases ranges with _ | ⟨r0, rs⟩ <;>
            simp [assignment_belongs, List.contains, hin, List.any_eq_true, and_assoc]
        · rcases ranges with _ | ⟨r0, rs⟩ <;>
            simp [assignment_belongs, List.contains, hin]

/-- When the window test fails, `should_include_assignment` is false. -/
theorem should_include_of_not_belongs
    (a : Assignment) (period_ids : List Int) (ranges : List (Int × Int)) (thr : Rat)
    (hbel : assignment_belongs a period_ids ranges = false) :
    should_include_assignment a period_ids ranges thr = false := by
  simp [should_include_assignment, hbel]

/-- C1: `should_include_assignment` deems an assignment to belong to the
window iff its `grading_period_id` is present and contained in `period_ids`,
or `ranges` is non-empty, `due_at` is present and parses to a timestamp `d`,
and `start ≤ d ≤ end` for some `(start, end)` in `ranges` (inclusive on both
bounds); consequently, whenever the `grading_period_id` is not in `period_ids`
and the due date lies outside every range, the filter returns `false`. -/
theorem window_membership_characterization
    (a : Assignment) (period_ids : List Int) (ranges : List (Int × Int)) (thr : Rat) :
    (assignment_belongs a period_ids ranges = true ↔
      ((∃ gp, a.grading_period_id = some gp ∧ gp ∈ period_ids) ∨
        (ranges ≠ [] ∧ ∃ d, a.due_at = some (ParsedDate.ok d) ∧
          ∃ r ∈ ranges, r.1 ≤ d ∧ d ≤ r.2))) ∧
    ((∀ gp, a.grading_period_id = some gp → gp ∉ period_ids) →
      (∀ d, a.due_at = some (ParsedDate.ok d) → ∀ r ∈ ranges, ¬(r.1 ≤ d ∧ d ≤ r.2)) →
      should_include_assignment a period_ids ranges thr = false) := by
  refine ⟨assignment_belongs_iff a period_ids ranges, fun h1 h2 => ?_⟩
  refine should_include_of_not_belongs a period_ids ranges thr ?_
  rw [← Bool.not_eq_true, assignment_belongs_iff]
  rintro (⟨gp, hgp, hmem⟩ | ⟨-, d, hd, r, hr, hran⟩)
  · exact h1 gp hgp hmem
  · exact h2 d hd r hr hran

/-- C1 witness: a concrete assignment whose `grading_period_id` (2) is not in
`period_ids = [1]` and whose due date (timestamp 200) lies outside the single
range `[0, 100]` is rejected. -/
theorem window_membership_characterization_witness :
    should_include_assignment
      { grading_period_id := some 2, due_at := some (ParsedDate.ok 200),
        submission := some { missing := true }, points_possible := some 10 }
      [1] [((0 : Int), (100 : Int))] 50 = false := by
  refine (window_membership_characterization _ [1] [(0, 100)] 50).2 ?_ ?_
  · intro gp hgp
    injection hgp with h
    subst h
    decide
  · intro d hd
    injection hd with h
    injection h with h2
    subst h2
    decide

/-- C2: for an assignment that belongs to the window, is not flagged missing,
and has a present score and non-zero `points_possible`, the filter returns
true iff `score / points_possible * 100 ≤ low_score_threshold_percent`
(default 50), an inclusive boundary. -/
theorem low_score_threshold_inclusive
    (a : Assignment) (period_ids : List Int) (ranges : List (Int × Int)) (thr : Rat)
    (s p : Rat)
    (hb : assignment_belongs a period_ids ranges = true)
    (hm : (a.submission.getD emptySubmission).missing = false)
    (hs : (a.submission.getD emptySubmission).score = some s)
    (hp : a.points_possible = some p) (hp0 : p ≠ 0) :
    (should_include_assignment a period_ids ranges thr = true ↔ (s / p) * 100 ≤ thr) := by
  simp [should_include_assignment, hb, hm, hs, hp, hp0]

/-- C2 witness: a score of exactly 50% (5/10) in the window is included at the
default threshold 50, and a score of 51% (51/100) is excluded. -/
theorem low_score_threshold_inclusive_witness :
    should_include_assignment
      { grading_period_id := some 1,
        submission := some { missing := false, score := some 5 },
        points_possible := some 10 } [1] [] 50 = true ∧
    should_include_assignment
      { grading_period_id := some 1,
        submission := some { missing := false, score := some 51 },
        points_possible := some 100 } [1] [] 50 = false := by
  constructor
  · exact (low_score_threshold_inclusive
      { grading_period_id := some 1,
        submission := some { missing := false, score := some 5 },
        points_possible := some 10 } [1] [] 50 5 10
      (by decide) rfl rfl rfl (by norm_num)).2 (by norm_num)
  · have h := low_score_threshold_inclusive
      { grading_period_id := some 1,
        submission := some { missing := false, score := some 51 },
        points_possible := some 100 } [1] [] 50 51 100
      (by decide) rfl rfl rfl (by norm_num)
    rw [← Bool.not_eq_true, h]
    norm_num

/-- C3: an assignment that belongs to the window and whose submission is
flagged missing is always included, whatever `score` and `points_possible`
hold. -/
theorem missing_always_included
    (a : Assignment) (period_ids : List Int) (ranges : List (Int × Int)) (thr : Rat)
    (hb : assignment_belongs a period_ids ranges = true)
    (hm : (a.submission.getD emptySubmission).missing = true) :
    should_include_assignment a period_ids ranges thr = true := by
  simp [should_include_assignment, hb, hm]

/-- C3 witness: a missing submission in period 1 is included even with a
perfect score. -/
theorem missing_always_included_witness :
    should_include_assignment
      { grading_period_id := some 1,
        submission := some { missing := true, score := some 10 },
        points_possible := some 10 } [1] [] 50 = true :=
  missing_always_included
    { grading_period_id := some 1,
      submission := some { missing := true, score := some 10 },
      points_possible := some 10 } [1] [] 50 (by decide) rfl

/-- C4: the filter is a total Boolean function; a missing score, or a zero or
missing `points_possible`, disables the score check (the result is false when
the assignment is not flagged missing); and an absent or unparsable due date
with a non-matching grading period id means the assignment does not belong,
so the filter returns false. -/
theorem filter_total_on_malformed
    (a : Assignment) (period_ids : List Int) (ranges : List (Int × Int)) (thr : Rat) :
    (should_include_assignment a period_ids ranges thr = true ∨
      should_include_assignment a period_ids ranges thr = false) ∧
    ((a.submission.getD emptySubmission).missing = false →
      ((a.submission.getD emptySubmission).score = none ∨
        a.points_possible = none ∨ a.points_possible = some 0) →
      should_include_assignment a period_ids ranges thr = false) ∧
    ((∀ gp, a.grading_period_id = some gp → gp ∉ period_ids) →
      (a.due_at = none ∨ a.due_at = some ParsedDate.fail) →
      assignment_belongs a period_ids ranges = false ∧
      should_include_assignment a period_ids ranges thr = false) := by
  refine ⟨Bool.eq_false_or_eq_true _, fun hm hcase => ?_, fun h1 h2 => ?_⟩
  · rcases hcase with hs | hp | hp
    · rcases hpt : a.points_possible with _ | p <;>
        simp [should_include_assignment, hm, hs, hpt]
    · rcases hsc : (a.submission.getD emptySubmission).score with _ | s <;>
        simp [should_include_assignment, hm, hp, hsc]
    · rcases hsc : (a.submission.getD emptySubmission).score with _ | s <;>
        simp [should_include_assignment, hm, hp, hsc]
  · have hbel : assignment_belongs a period_ids ranges = false := by
      rw [← Bool.not_eq_true, assignment_belongs_iff]
      rintro (⟨gp, hgp, hmem⟩ | ⟨-, d, hd, r, hr, hran⟩)
      · exact h1 gp hgp hmem
      · rcases h2 with h2 | h2 <;> rw [h2] at hd <;> simp at hd
    exact ⟨hbel, should_include_of_not_belongs a period_ids ranges thr hbel⟩

/-- C4 witness: an ungraded (score `None`) non-missing assignment in the
window yields false, and an unparsable due date with a non-matching grading
period id does not belong and yields false. -/
theorem filter_total_on_malformed_witness :
    should_include_assignment
      { grading_period_id := some 1,
        submission := some { missing := false, score := none },
        points_possible := some 10 } [1] [] 50 = false ∧
    (assignment_belongs
      { grading_period_id := some 2, due_at := some ParsedDate.fail }
      [1] [((0 : Int), (100 : Int))] = false ∧
    should_include_assignment
      { grading_period_id := some 2, due_at := some ParsedDate.fail }
      [1] [((0 : Int), (100 : Int))] 50 = false) := by
  constructor
  · exact (filter_total_on_malformed
      { grading_period_id := some 1,
        submission := some { missing := false, score := none },
        points_possible := some 10 } [1] [] 50).2.1 rfl (Or.inl rfl)
  · refine (filter_total_on_malformed
      { grading_period_id := some 2, due_at := some ParsedDate.fail }
      [1] [(0, 100)] 50).2.2 ?_ (Or.inr rfl)
    intro gp hgp
    injection hgp with h
    subst h
    decide

/-- C5: the chunker is loss-less and size-respecting — joining the chunks back
with newlines reproduces the newline-join of the input lines; the chunks are
exactly the newline-joins of consecutive non-empty groups of the input lines
(so no line is split across chunks and order is preserved); and a chunk whose
charged length (each line counted as `len(line) + 1`) exceeds `max_len` can
only be a single line that is itself too long. -/
theorem chunker_lossless_and_bounded (lines : List String) (max_len : Nat) :
    String.intercalate "\n" (_chunk_lines lines max_len) =
      String.intercalate "\n" lines ∧
    _chunk_lines lines max_len =
      (chunkGroups lines max_len).map (String.intercalate "\n") ∧
    (chunkGroups lines max_len).flatten = lines ∧
    (∀ g ∈ chunkGroups lines max_len, g ≠ [] ∧
      (chunkCost g ≤ max_len ∨ ∃ l, g = [l] ∧ max_len < l.length + 1)) := by
  have hmap : _chunk_lines lines max_len =
      (chunkGroups lines max_len).map (String.intercalate "\n") :=
    chunkLinesAux_eq_map max_len lines [] 0
  have hflat : (chunkGroups lines max_len).flatten = lines := by
    simpa using chunkGroupsAux_flatten max_len lines [] 0
  have hne : ∀ g ∈ chunkGroups lines max_len, g ≠ [] :=
    chunkGroupsAux_ne_nil max_len lines [] 0
  have hcost : ∀ g ∈ chunkGroups lines max_len,
      chunkCost g ≤ max_len ∨ ∃ l, g = [l] :=
    chunkGroupsAux_cost max_len lines [] 0 (by simp [chunkCost])
      (Or.inl (by simp [chunkCost]))
  refine ⟨?_, hmap, hflat, fun g hg => ⟨hne g hg, ?_⟩⟩
  · rw [hmap, intercalate_map_intercalate _ _ hne, hflat]
  · rcases le_or_lt (chunkCost g) max_len with hle | hgt
    · exact Or.inl hle
    · rcases hcost g hg with hle | ⟨l, rfl⟩
      · exact Or.inl hle
      · refine Or.inr ⟨l, rfl, ?_⟩
        simpa [chunkCost] using hgt

/-- C5 witness: for `lines = ["aa", "bb", "cc"]` and `max_len = 6`, the first
produced group `["aa", "bb"]` is non-empty and within the bound. -/
theorem chunker_lossless_and_bounded_witness :
    ["aa", "bb"] ≠ [] ∧
    (chunkCost ["aa", "bb"] ≤ 6 ∨ ∃ l, ["aa", "bb"] = [l] ∧ 6 < l.length + 1) :=
  (chunker_lossless_and_bounded ["aa", "bb", "cc"] 6).2.2.2 ["aa", "bb"] (by decide)

/-- C6: with an empty record set, the notification step produces exactly one
payload, carrying the fixed all-clear message. -/
theorem empty_records_single_all_clear :
    send_discord_notification_contents [] =
      ["✅ No missing or below 50% assignments found."] ∧
    (send_discord_notification_contents []).length = 1 :=
  ⟨rfl, rfl⟩

/-- C7: the record's `percent` is `round(score / points_possible * 100, 2)`
when the score is present and `points_possible` is present and non-zero, and
`None` when the score is absent or `points_possible` is zero or absent; the
computation is total (no division error is possible). -/
theorem record_percent_correct (course : Course) (a : Assignment) (s p : Rat) :
    ((a.submission.getD emptySubmission).score = some s →
      a.points_possible = some p → p ≠ 0 →
      (_assignment_to_record course a).percent = some (round2 ((s / p) * 100))) ∧
    (((a.submission.getD emptySubmission).score = none ∨
        a.points_possible = none ∨ a.points_possible = some 0) →
      (_assignment_to_record course a).percent = none) := by
  constructor
  · intro hs hp hp0
    simp [_assignment_to_record, hs, hp, hp0]
  · rintro (hs | hp | hp)
    · rcases hpt : a.points_possible with _ | p' <;>
        simp [_assignment_to_record, hs, hpt]
    · rcases hsc : (a.submission.getD emptySubmission).score with _ | s' <;>
        simp [_assignment_to_record, hp, hsc]
    · rcases hsc : (a.submission.getD emptySubmission).score with _ | s' <;>
        simp [_assignment_to_record, hp, hsc]

/-- C7 witness: a 5/10 score yields `percent = round(50, 2)`, and a present
score with `points_possible = 0` yields `percent = None` (no division
error). -/
theorem record_percent_correct_witness :
    (_assignment_to_record { id := 7 }
      { submission := some { score := some 5 }, points_possible := some 10 }).percent
        = some (round2 ((5 / 10) * 100)) ∧
    (_assignment_to_record { id := 7 }
      { submission := some { score := some 3 }, points_possible := some 0 }).percent
        = none := by
  constructor
  · exact (record_percent_correct { id := 7 }
      { submission := some { score := some 5 }, points_possible := some 10 }
      5 10).1 rfl rfl (by norm_num)
  · exact (record_percent_correct { id := 7 }
      { submission := some { score := some 3 }, points_possible := some 0 }
      3 0).2 (Or.inr (Or.inr rfl))

/-- C8: a course whose assignment fetch fails contributes no records and does
not abort the run — `collect_results` on any course list containing it equals
the concatenation of the results for the courses before and after it, in
order. -/
theorem collector_swallows_failed_course
    (pre : List Course) (c : Course) (post : List Course)
    (get_assignments : Int → Except Unit (List Assignment)) (e : Unit)
    (hfail : get_assignments c.id = Except.error e) :
    collect_results (pre ++ c :: post) get_assignments =
      collect_results pre get_assignments ++ collect_results post get_assignments := by
  induction pre with
  | nil => simp [collect_results, hfail]
  | cons c' pre ih => simp [collect_results, ih, List.append_assoc]

/-- C8 witness: with a fetch function failing exactly on course id 2, the run
over courses 1, 2, 3 equals the concatenation of the runs over course 1 and
course 3. -/
theorem collector_swallows_failed_course_witness :
    collect_results [{ id := 1 }, { id := 2 }, { id := 3 }]
        (fun i => if i = 2 then Except.error () else Except.ok []) =
      collect_results [{ id := 1 }]
        (fun i => if i = 2 then Except.error () else Except.ok []) ++
      collect_results [{ id := 3 }]
        (fun i => if i = 2 then Except.error () else Except.ok []) :=
  collector_swallows_failed_course [{ id := 1 }] { id := 2 } [{ id := 3 }]
    (fun i => if i = 2 then Except.error () else Except.ok []) ()
    (if_pos rfl)

/-- C9: the two filtering scripts are not behaviourally equivalent: an
assignment scoring exactly 50% inside the window is included by
`should_include_assignment` (inclusive `≤ 50` threshold) but not reported by
the per-assignment condition of `find_bad_assignments` (strict `< 50`). -/
theorem two_filter_scripts_disagree :
    should_include_assignment
      { grading_period_id := some 1,
        submission := some { missing := false, score := some 5 },
        points_possible := some 10 } [1] [] 50 = true ∧
    find_bad_assignments_condition
      { grading_period_id := some 1,
        submission := some { missing := false, score := some 5 },
        points_possible := some 10 } = some false := by
  constructor
  · norm_num [should_include_assignment, assignment_belongs, emptySubmission,
      List.contains]
  · norm_num [find_bad_assignments_condition]

/-- C10: flipping the submission's `late` flag never changes the result of
`should_include_assignment` — the flag does not affect eligibility. -/
theorem late_flag_does_not_affect_filter
    (a : Assignment) (period_ids : List Int) (ranges : List (Int × Int))
    (thr : Rat) (l : Bool) :
    should_include_assignment
        { a with submission := a.submission.map fun sub => { sub with late := l } }
        period_ids ranges thr =
      should_include_assignment a period_ids ranges thr := by
  obtain ⟨id, name, pts, due, gp, sub, url⟩ := a
  rcases sub with _ | sub <;> rfl
